import Mathlib

/-
  Verification of the block-location and challenge-verification subsystem of the
  czarrapo repository (src/decrypt.c, src/error_handling.c, src/context.h).

  Shallow embedding conventions:
  * Bytes are modelled as Nat, byte buffers as List Nat.
  * The cryptographic collaborators (RSA_private_decrypt, the two hash stages)
    are parameters of the embedded functions: any concrete instantiation models
    one concrete key / hash configuration.  This mirrors the C code, where they
    are opaque OpenSSL calls.
  * The error handlers in error_handling.c print a message and, on the paths
    relevant here, call exit(1).  A run of the code is therefore modelled by an
    Outcome value: ok (a value is returned to the caller), err (a typed failure
    value is returned to the caller -- expressible, but never produced by this
    code), or exitProcess (the process is terminated with the given status,
    reporting the given error condition).
  * File I/O performed by decrypt_file and _find_selected_block is recorded in
    an event trace (DEvent list) so that ordering and resource-count claims can
    be stated.
-/

/-- Padding mode chosen in the slow scan (decrypt.c lines 80-87):
RSA_NO_PADDING when block_size == rsa_block_size, RSA_PKCS1_OAEP_PADDING otherwise. -/
inductive Padding where
  | noPadding
  | oaep
deriving DecidableEq, BEq

/-- The header fields read by _read_basic_header and _find_selected_block,
in the order they appear in the file. -/
inductive HdrField where
  | fastFlag
  | challenge
  | auth
deriving DecidableEq, BEq

/-- Error taxonomy of the subsystem.  The C code reports errors through printed
messages; each message is mapped to the corresponding condition here. -/
inductive CzError where
  | invalidBlockSize
  | invalidConfiguration
  | keyUnavailable
  | headerTruncated : HdrField → CzError
  | blockNotFound
  | ioFailure
deriving DecidableEq, BEq

/-- Result of running a piece of the C code.  ok means a value is returned to
the caller; err means a typed failure value is returned to the caller;
exitProcess means the error handlers terminated the process with the given
exit status after printing a message describing the given error. -/
inductive Outcome (α : Type) where
  | ok : α → Outcome α
  | err : CzError → Outcome α
  | exitProcess : Nat → CzError → Outcome α
deriving DecidableEq, BEq

deriving instance DecidableEq for Except

/-- True exactly on the err constructor (a typed failure returned to the caller). -/
def isErr {α : Type} : Outcome α → Bool
  | Outcome.err _ => true
  | _ => false

/-- True exactly on the exitProcess constructor (process terminated by a handler). -/
def isExit {α : Type} : Outcome α → Bool
  | Outcome.exitProcess _ _ => true
  | _ => false

/-- Observable events of one decrypt_file invocation, in program order. -/
inductive DEvent where
  | fileSizeQuery
  | blockSizeCheck
  | keyLoad
  | encryptedOpen
  | headerRead : HdrField → DEvent
  | scanAttempt : Nat → DEvent
  | closeEncrypted
  | keyFree
deriving DecidableEq, BEq

/-- Header values parsed from the file (mode flag, challenge bytes, auth bytes;
authBytes is empty in slow mode, where no auth field exists). -/
structure HeaderOut where
  fast : Bool
  challengeBytes : List Nat
  authBytes : List Nat
deriving DecidableEq, BEq

/-- Modelled from the spec: the power-of-two test _ispowerof2 lives in utils.c,
which is not part of this source slice; the spec (section 4.6 and glossary)
requires block_size to be a power of two.  isPow2 n decides whether n is a
power of two (every power 2^k equal to n has k less than n + 1). -/
def isPow2 (n : Nat) : Bool :=
  (List.range (n + 1)).any (fun k => n == 2 ^ k)

/-- _handle_simple_error (error_handling.c lines 4-7): prints the message and
calls exit(1).  Modelled as the process-exit outcome with status 1. -/
def _handle_simple_error {α : Type} (e : CzError) : Outcome α :=
  Outcome.exitProcess 1 e

/-- Header parsing as performed by _read_basic_header (decrypt.c lines 48-62)
plus the fast-mode auth read in _find_selected_block (lines 151-158), over the
full file contents.  Returns the parse result together with the list of header
fields whose fread was attempted, in order.  A short read (fewer bytes
available than the fixed field width) stops parsing: the handlers print a
message naming the field, free the RSA struct, close the file and exit(1);
this is the error result carrying the field. -/
def readHeaderTr (data : List Nat) (challengeSize authSize : Nat) :
    Except HdrField HeaderOut × List HdrField :=
  let flagBytes := (data.drop 0).take 1
  if flagBytes.length < 1 then
    (Except.error HdrField.fastFlag, [HdrField.fastFlag])
  else
    let fast := flagBytes.getD 0 0 != 0
    let ch := (data.drop 1).take challengeSize
    if ch.length < challengeSize then
      (Except.error HdrField.challenge, [HdrField.fastFlag, HdrField.challenge])
    else if fast then
      let au := (data.drop (1 + challengeSize)).take authSize
      if au.length < authSize then
        (Except.error HdrField.auth,
         [HdrField.fastFlag, HdrField.challenge, HdrField.auth])
      else
        (Except.ok ⟨fast, ch, au⟩,
         [HdrField.fastFlag, HdrField.challenge, HdrField.auth])
    else
      (Except.ok ⟨fast, ch, []⟩, [HdrField.fastFlag, HdrField.challenge])

/-- Padding decision of __find_block_slow (decrypt.c lines 80-87), made once
before the scan loop. -/
def paddingOf (block_size rsa_block_size : Nat) : Padding :=
  if block_size == rsa_block_size then Padding.noPadding else Padding.oaep

/-- Acceptance test of one candidate offset in the slow scan (decrypt.c lines
99-117): seek to the offset, read up to rsa_block_size bytes, attempt RSA
decryption with the chosen padding (failure means the offset is skipped), then
compare _CHALLENGE_HASH(_BLOCK_HASH(decrypted_block concatenated with the
password)) with the challenge read from the header.  data is the file contents
after the header (the scan origin). -/
def slowAccept (decrypt : Padding → List Nat → Option (List Nat))
    (hash1 hash2 : List Nat → List Nat)
    (data password challengeBytes : List Nat)
    (rsa_block_size : Nat) (pad : Padding) (i : Nat) : Bool :=
  match decrypt pad ((data.drop i).take rsa_block_size) with
  | none => false
  | some pt => hash2 (hash1 (pt ++ password)) == challengeBytes

/-- The scan loop of __find_block_slow (decrypt.c line 98: for i from 0 while
i < file_size step block_size), fuel-indexed so that it is structurally
recursive.  Returns the result of the loop (some index on the first accepted
offset, none on exhaustion) together with the list of offsets attempted, in
order.  With positive block_size and fuel at least file_size + 1 the fuel
never runs out; block_size = 0 would make the C loop spin forever, and is
excluded upstream by the power-of-two validation. -/
def scanTrAux (accept : Nat → Bool) (file_size block_size : Nat) :
    Nat → Nat → Option Nat × List Nat
  | _, 0 => (none, [])
  | i, fuel + 1 =>
    if i < file_size then
      if accept i then (some (i / block_size), [i])
      else
        let r := scanTrAux accept file_size block_size (i + block_size) fuel
        (r.1, i :: r.2)
    else (none, [])

/-- The scan loop started at offset 0 with sufficient fuel. -/
def scanTr (accept : Nat → Bool) (file_size block_size : Nat) :
    Option Nat × List Nat :=
  scanTrAux accept file_size block_size 0 (file_size + 1)

/-- __find_block_slow (decrypt.c lines 69-121): choose the padding once,
scan offsets 0, block_size, 2*block_size, ... below file_size, return the
index i / block_size of the first offset whose window decrypts and reproduces
the challenge; if the loop exhausts, _handle_simple_error terminates the
process.  Also returns the trace of (offset, padding used) per attempt. -/
def __find_block_slow (decrypt : Padding → List Nat → Option (List Nat))
    (hash1 hash2 : List Nat → List Nat)
    (data : List Nat) (file_size block_size rsa_block_size : Nat)
    (password challengeBytes : List Nat) :
    Outcome Nat × List (Nat × Padding) :=
  let pad := paddingOf block_size rsa_block_size
  let r := scanTr
    (slowAccept decrypt hash1 hash2 data password challengeBytes rsa_block_size pad)
    file_size block_size
  (match r.1 with
   | some idx => Outcome.ok idx
   | none => _handle_simple_error CzError.blockNotFound,
   r.2.map (fun i => (i, pad)))

/-- __find_block_fast (decrypt.c lines 123-130): an unimplemented stub whose
body is a TODO comment followed by return 0.  It ignores every argument,
performs no auth-tag check and never reports any failure. -/
def __find_block_fast (data : List Nat)
    (file_size block_size rsa_block_size : Nat)
    (password challengeBytes authBytes : List Nat) : Outcome Nat :=
  Outcome.ok 0

/-- decrypt_file (decrypt.c lines 168-201) together with _find_selected_block
(lines 136-166), as one function producing the outcome and the event trace.

Program order modelled:
1. The declaration initializer encrypted_file_size = _get_file_size(...) runs
   first and queries the size of the encrypted file (fileSizeQuery).
2. _ispowerof2(block_size) is checked; on failure _handle_simple_error
   prints and exits(1).
3. _read_private_key loads the RSA key (keyLoad); on failure
   _handle_simple_error exits(1) (the key struct was already freed inside
   _read_private_key on its failure paths).
4. If passed_block_index < 0, _find_selected_block opens the encrypted file
   (encryptedOpen on success; on fopen failure _handle_RSA_error frees the key
   and exits(1)), reads the header, dispatches on the fast flag, closes the
   file on the paths that return, and decrypt_file then frees the key
   (keyFree).  When the slow scan exhausts, _handle_simple_error exits(1)
   directly: neither fclose nor RSA_free runs on that path.
5. If passed_block_index >= 0 it is used unchanged; no file is opened and no
   header is read; the key is freed. -/
def decrypt_file (decrypt : Padding → List Nat → Option (List Nat))
    (hash1 hash2 : List Nat → List Nat)
    (fileData : List Nat) (block_size rsa_block_size : Nat)
    (password : List Nat) (challengeSize authSize : Nat)
    (keyLoadOk openOk : Bool) (passed_block_index : Int) :
    Outcome Nat × List DEvent :=
  let file_size := fileData.length
  let ev0 : List DEvent := [DEvent.fileSizeQuery]
  if !(isPow2 block_size) then
    (Outcome.exitProcess 1 CzError.invalidBlockSize, ev0 ++ [DEvent.blockSizeCheck])
  else
    let ev1 := ev0 ++ [DEvent.blockSizeCheck, DEvent.keyLoad]
    if !keyLoadOk then
      (Outcome.exitProcess 1 CzError.keyUnavailable, ev1)
    else if passed_block_index < 0 then
      if !openOk then
        (Outcome.exitProcess 1 CzError.ioFailure, ev1 ++ [DEvent.keyFree])
      else
        let ev2 := ev1 ++ [DEvent.encryptedOpen]
        let hr := readHeaderTr fileData challengeSize authSize
        let hev := hr.2.map DEvent.headerRead
        match hr.1 with
        | Except.error f =>
          (Outcome.exitProcess 1 (CzError.headerTruncated f),
           ev2 ++ hev ++ [DEvent.keyFree, DEvent.closeEncrypted])
        | Except.ok hdr =>
          if hdr.fast then
            let fidx := __find_block_fast (fileData.drop (1 + challengeSize + authSize))
              file_size block_size rsa_block_size password hdr.challengeBytes hdr.authBytes
            (fidx, ev2 ++ hev ++ [DEvent.closeEncrypted, DEvent.keyFree])
          else
            let body := fileData.drop (1 + challengeSize)
            let r := __find_block_slow decrypt hash1 hash2 body file_size
              block_size rsa_block_size password hdr.challengeBytes
            let sev := r.2.map (fun p => DEvent.scanAttempt p.1)
            match r.1 with
            | Outcome.ok idx =>
              (Outcome.ok idx, ev2 ++ hev ++ sev ++ [DEvent.closeEncrypted, DEvent.keyFree])
            | other =>
              (other, ev2 ++ hev ++ sev)
    else
      (Outcome.ok passed_block_index.toNat, ev1 ++ [DEvent.keyFree])

/-- True when the trace contains a headerRead event (some header field was read). -/
def hasHeaderRead (l : List DEvent) : Bool :=
  l.any (fun e => match e with | DEvent.headerRead _ => true | _ => false)

/-- True when the trace contains a scanAttempt event (some scan iteration ran). -/
def hasScanAttempt (l : List DEvent) : Bool :=
  l.any (fun e => match e with | DEvent.scanAttempt _ => true | _ => false)

/-- Number of RSA_free calls recorded in the trace. -/
def keyFreeCount (l : List DEvent) : Nat :=
  (l.filter (fun e => match e with | DEvent.keyFree => true | _ => false)).length

/-- Number of fclose calls on the encrypted file recorded in the trace. -/
def closeCount (l : List DEvent) : Nat :=
  (l.filter (fun e => match e with | DEvent.closeEncrypted => true | _ => false)).length

/-- Number of successful fopen calls on the encrypted file recorded in the trace. -/
def openCount (l : List DEvent) : Nat :=
  (l.filter (fun e => match e with | DEvent.encryptedOpen => true | _ => false)).length

/-- Capacity of the decrypted_block buffer declared in __find_block_slow
(decrypt.c line 76): block_size + strlen(password) bytes. -/
def decryptedBufCapacity (block_size passwordLen : Nat) : Nat :=
  block_size + passwordLen

/-- Extent of the bytes written into decrypted_block during one successful
iteration (decrypt.c lines 103 and 108): RSA_private_decrypt writes
decrypted_block_len bytes at offset 0, then memcpy writes the password at
offset decrypted_block_len. -/
def iterWriteExtent (decryptedLen passwordLen : Nat) : Nat :=
  decryptedLen + passwordLen

/-- Maximal plaintext length RSA_private_decrypt can return with OAEP padding
for a modulus of rsa_block_size bytes: rsa_block_size - 2 * 20 - 2 (OAEP with
SHA-1, OpenSSL default).  The spec only bounds it by rsa_block_size. -/
def oaepMaxLen (rsa_block_size : Nat) : Nat :=
  rsa_block_size - 42

/-! ### Properties of the scan loop -/

/-- If the scan loop returns some index, the index comes from the first
accepted offset among i0, i0 + bs, i0 + 2*bs, ... -/
theorem scanTrAux_some (accept : Nat → Bool) (fs bs : Nat) :
    ∀ fuel i0 idx tr, scanTrAux accept fs bs i0 fuel = (some idx, tr) →
      ∃ k, i0 + bs * k < fs ∧ accept (i0 + bs * k) = true ∧
        idx = (i0 + bs * k) / bs ∧ ∀ m, m < k → accept (i0 + bs * m) = false := by
  intro fuel
  induction fuel with
  | zero =>
    intro i0 idx tr h
    simp [scanTrAux] at h
  | succ fuel ih =>
    intro i0 idx tr h
    by_cases hi : i0 < fs
    · by_cases ha : accept i0 = true
      · have hpair : (some (i0 / bs), ([i0] : List Nat)) = (some idx, tr) := by
          rw [← h]
          simp only [scanTrAux]
          rw [if_pos hi, if_pos ha]
        have hidx : idx = i0 / bs := by
          have := congrArg Prod.fst hpair
          simpa using this.symm
        refine ⟨0, by simpa using hi, by simpa using ha, by simpa using hidx, ?_⟩
        intro m hm
        exact absurd hm (Nat.not_lt_zero m)
      · have hstep : scanTrAux accept fs bs i0 (fuel + 1)
            = ((scanTrAux accept fs bs (i0 + bs) fuel).1,
               i0 :: (scanTrAux accept fs bs (i0 + bs) fuel).2) := by
          simp only [scanTrAux]
          rw [if_pos hi, if_neg ha]
        rw [hstep] at h
        have ho : (scanTrAux accept fs bs (i0 + bs) fuel).1 = some idx :=
          congrArg Prod.fst h
        obtain ⟨k, hk1, hk2, hk3, hk4⟩ :=
          ih (i0 + bs) idx (scanTrAux accept fs bs (i0 + bs) fuel).2
            (by rw [← ho])
        have hA : accept i0 = false := by
          cases hval : accept i0
          · rfl
          · exact absurd hval ha
        have e : i0 + bs * (k + 1) = i0 + bs + bs * k := by ring
        refine ⟨k + 1, by rw [e]; exact hk1, by rw [e]; exact hk2,
          by rw [e]; exact hk3, ?_⟩
        intro m hm
        cases m with
        | zero => simpa using hA
        | succ m =>
          have e2 : i0 + bs * (m + 1) = i0 + bs + bs * m := by ring
          rw [e2]
          exact hk4 m (by omega)
    · exfalso
      have : scanTrAux accept fs bs i0 (fuel + 1) = (none, []) := by
        simp only [scanTrAux]
        rw [if_neg hi]
      rw [this] at h
      exact Option.noConfusion (congrArg Prod.fst h)

/-- If no candidate offset is accepted, the scan loop reports exhaustion. -/
theorem scanTrAux_none (accept : Nat → Bool) (fs bs : Nat) :
    ∀ fuel i0, (∀ k, i0 + bs * k < fs → accept (i0 + bs * k) = false) →
      (scanTrAux accept fs bs i0 fuel).1 = none := by
  intro fuel
  induction fuel with
  | zero =>
    intro i0 _
    simp [scanTrAux]
  | succ fuel ih =>
    intro i0 hall
    by_cases hi : i0 < fs
    · have h0 : accept i0 = false := by
        have := hall 0 (by simpa using hi)
        simpa using this
      have hstep : scanTrAux accept fs bs i0 (fuel + 1)
          = ((scanTrAux accept fs bs (i0 + bs) fuel).1,
             i0 :: (scanTrAux accept fs bs (i0 + bs) fuel).2) := by
        simp only [scanTrAux]
        rw [if_pos hi, if_neg (by simp [h0])]
      rw [hstep]
      exact ih (i0 + bs) (fun k hk => by
        have e : i0 + bs + bs * k = i0 + bs * (k + 1) := by ring
        rw [e] at hk ⊢
        exact hall (k + 1) hk)
    · simp only [scanTrAux]
      rw [if_neg hi]

/-- With positive stride, no accepted offset and enough fuel, every candidate
offset below file_size is attempted by the scan loop. -/
theorem scanTrAux_mem (accept : Nat → Bool) (fs bs : Nat) (hbs : 0 < bs)
    (hall : ∀ j, accept j = false) :
    ∀ fuel i0, fs - i0 < fuel → ∀ k, i0 + bs * k < fs →
      i0 + bs * k ∈ (scanTrAux accept fs bs i0 fuel).2 := by
  intro fuel
  induction fuel with
  | zero =>
    intro i0 h
    omega
  | succ fuel ih =>
    intro i0 hfuel k hk
    have hi : i0 < fs := by omega
    have hstep : scanTrAux accept fs bs i0 (fuel + 1)
        = ((scanTrAux accept fs bs (i0 + bs) fuel).1,
           i0 :: (scanTrAux accept fs bs (i0 + bs) fuel).2) := by
      simp only [scanTrAux]
      rw [if_pos hi, if_neg (by simp [hall i0])]
    rw [hstep]
    cases k with
    | zero => simp
    | succ m =>
      have e : i0 + bs * (m + 1) = i0 + bs + bs * m := by ring
      rw [e]
      exact List.mem_cons_of_mem _
        (ih (i0 + bs) (by omega) m (by rw [← e]; exact hk))

/-- The list of offsets attempted by the scan loop is strictly increasing, and
every attempted offset is at least the starting offset. -/
theorem scanTrAux_chain (accept : Nat → Bool) (fs bs : Nat) (hbs : 0 < bs) :
    ∀ fuel i0,
      List.Chain' (fun a b => a < b) (scanTrAux accept fs bs i0 fuel).2 ∧
      ∀ x ∈ (scanTrAux accept fs bs i0 fuel).2, i0 ≤ x := by
  intro fuel
  induction fuel with
  | zero =>
    intro i0
    simp [scanTrAux]
  | succ fuel ih =>
    intro i0
    by_cases hi : i0 < fs
    · by_cases ha : accept i0 = true
      · have hstep : scanTrAux accept fs bs i0 (fuel + 1)
            = (some (i0 / bs), [i0]) := by
          simp only [scanTrAux]
          rw [if_pos hi, if_pos ha]
        rw [hstep]
        constructor
        · simp
        · intro x hx
          simp at hx
          omega
      · obtain ⟨ihc, ihb⟩ := ih (i0 + bs)
        have hstep : scanTrAux accept fs bs i0 (fuel + 1)
            = ((scanTrAux accept fs bs (i0 + bs) fuel).1,
               i0 :: (scanTrAux accept fs bs (i0 + bs) fuel).2) := by
          simp only [scanTrAux]
          rw [if_pos hi, if_neg ha]
        rw [hstep]
        constructor
        · refine List.Chain'.cons' ihc ?_
          intro y hy
          have := ihb y (List.mem_of_mem_head? hy)
          omega
        · intro x hx
          rcases List.mem_cons.mp hx with h | h
          · omega
          · have := ihb x h
            omega
    · have hstep : scanTrAux accept fs bs i0 (fuel + 1) = (none, []) := by
        simp only [scanTrAux]
        rw [if_neg hi]
      rw [hstep]
      simp

/-! ### Claim C1 -/

/-- Claim C1: for every slow-mode file, if the scan succeeds, __find_block_slow
returns index = i / block_size where i = block_size * index is a multiple of
block_size with i < file_size whose rsa_block_size-byte window decrypts
successfully and satisfies Hash2(Hash1(decrypted_block ++ password)) ==
challenge (the slowAccept test); no offset strictly smaller than i satisfies
the acceptance test, and the offsets attempted are strictly increasing. -/
theorem c1_slow_scan_first_match
    (decrypt : Padding → List Nat → Option (List Nat))
    (hash1 hash2 : List Nat → List Nat)
    (data password challengeBytes : List Nat)
    (file_size block_size rsa_block_size : Nat)
    (hbs : 0 < block_size) (idx : Nat)
    (hres : (__find_block_slow decrypt hash1 hash2 data file_size block_size
        rsa_block_size password challengeBytes).1 = Outcome.ok idx) :
    block_size * idx < file_size ∧
    slowAccept decrypt hash1 hash2 data password challengeBytes rsa_block_size
      (paddingOf block_size rsa_block_size) (block_size * idx) = true ∧
    (∀ j, j < block_size * idx → j % block_size = 0 →
      slowAccept decrypt hash1 hash2 data password challengeBytes rsa_block_size
        (paddingOf block_size rsa_block_size) j = false) ∧
    List.Chain' (fun a b => a < b)
      ((__find_block_slow decrypt hash1 hash2 data file_size block_size
        rsa_block_size password challengeBytes).2.map Prod.fst) := by
  have hmain : (scanTr (slowAccept decrypt hash1 hash2 data password
      challengeBytes rsa_block_size (paddingOf block_size rsa_block_size))
      file_size block_size).1 = some idx := by
    simp only [__find_block_slow] at hres
    rcases h : (scanTr (slowAccept decrypt hash1 hash2 data password
        challengeBytes rsa_block_size (paddingOf block_size rsa_block_size))
        file_size block_size).1 with _ | i
    · rw [h] at hres
      simp [_handle_simple_error] at hres
    · rw [h] at hres
      simp at hres
      rw [hres]
  obtain ⟨k, hk1, hk2, hk3, hk4⟩ :=
    scanTrAux_some (slowAccept decrypt hash1 hash2 data password
        challengeBytes rsa_block_size (paddingOf block_size rsa_block_size))
      file_size block_size (file_size + 1) 0 idx
      (scanTr (slowAccept decrypt hash1 hash2 data password
        challengeBytes rsa_block_size (paddingOf block_size rsa_block_size))
        file_size block_size).2
      (by
        have : scanTr (slowAccept decrypt hash1 hash2 data password
            challengeBytes rsa_block_size (paddingOf block_size rsa_block_size))
            file_size block_size
            = (some idx, (scanTr (slowAccept decrypt hash1 hash2 data password
                challengeBytes rsa_block_size (paddingOf block_size rsa_block_size))
                file_size block_size).2) := by
          rw [← hmain]
        exact this)
  simp only [Nat.zero_add] at hk1 hk2 hk3 hk4
  have hidx : idx = k := by
    rw [hk3, Nat.mul_div_cancel_left k hbs]
  subst hidx
  refine ⟨hk1, hk2, ?_, ?_⟩
  · intro j hj hmod
    have hdvd : block_size ∣ j := Nat.dvd_of_mod_eq_zero hmod
    have hj' : block_size * (j / block_size) = j := Nat.mul_div_cancel' hdvd
    have hm : j / block_size < idx := by
      rcases Nat.lt_or_ge (j / block_size) idx with h | h
      · exact h
      · exfalso
        have : block_size * idx ≤ block_size * (j / block_size) :=
          Nat.mul_le_mul_left block_size h
        rw [hj'] at this
        omega
    rw [← hj']
    exact hk4 (j / block_size) hm
  · have hchain := (scanTrAux_chain (slowAccept decrypt hash1 hash2 data password
        challengeBytes rsa_block_size (paddingOf block_size rsa_block_size))
        file_size block_size hbs (file_size + 1) 0).1
    simp only [__find_block_slow, List.map_map]
    have : (Prod.fst ∘ fun i => (i, paddingOf block_size rsa_block_size))
        = fun i : Nat => i := by
      funext i
      rfl
    rw [this]
    simpa [scanTr] using hchain

/-- Witness for claim C1: a concrete instantiation (identity decryption and
hashes, file bytes 5 6 7 8, challenge 7 8, block_size = rsa_block_size = 2)
where the scan succeeds at offset 2, index 1. -/
theorem c1_slow_scan_first_match_witness :
    0 < 2 ∧
    (__find_block_slow (fun _ w => some w) id id [5, 6, 7, 8] 4 2 2 [] [7, 8]).1
      = Outcome.ok 1 ∧
    (2 * 1 < 4 ∧
     slowAccept (fun _ w => some w) id id [5, 6, 7, 8] [] [7, 8] 2
       (paddingOf 2 2) (2 * 1) = true ∧
     (∀ j, j < 2 * 1 → j % 2 = 0 →
       slowAccept (fun _ w => some w) id id [5, 6, 7, 8] [] [7, 8] 2
         (paddingOf 2 2) j = false) ∧
     List.Chain' (fun a b => a < b)
       ((__find_block_slow (fun _ w => some w) id id [5, 6, 7, 8] 4 2 2 []
         [7, 8]).2.map Prod.fst)) :=
  ⟨by decide, by decide,
   c1_slow_scan_first_match (fun _ w => some w) id id [5, 6, 7, 8] [] [7, 8]
     4 2 2 (by decide) 1 (by decide)⟩

/-! ### Claim C2 -/

/-- Claim C2 (amended): if the slow-mode scan loop exhausts all offsets in
[0, file_size) stepped by block_size without a challenge match, the code
reaches _handle_simple_error, which prints the block-not-found message and
terminates the process with exit status 1; the failure is not returned to the
caller as a typed value. -/
theorem c2_slow_scan_exhaust_exits
    (decrypt : Padding → List Nat → Option (List Nat))
    (hash1 hash2 : List Nat → List Nat)
    (data password challengeBytes : List Nat)
    (file_size block_size rsa_block_size : Nat)
    (hnone : ∀ k, block_size * k < file_size →
      slowAccept decrypt hash1 hash2 data password challengeBytes rsa_block_size
        (paddingOf block_size rsa_block_size) (block_size * k) = false) :
    (__find_block_slow decrypt hash1 hash2 data file_size block_size
        rsa_block_size password challengeBytes).1
      = Outcome.exitProcess 1 CzError.blockNotFound := by
  have h := scanTrAux_none (slowAccept decrypt hash1 hash2 data password
      challengeBytes rsa_block_size (paddingOf block_size rsa_block_size))
    file_size block_size (file_size + 1) 0
    (fun k hk => by simpa using hnone k (by simpa using hk))
  simp only [__find_block_slow, scanTr] at h ⊢
  rw [h]
  rfl

/-- Witness for claim C2: a concrete run (decryption fails everywhere) in
which the scan exhausts and the process is terminated. -/
theorem c2_slow_scan_exhaust_exits_witness :
    (∀ k, 2 * k < 4 →
      slowAccept (fun _ _ => none) id id [5, 6, 7, 8] [] [7, 8] 2
        (paddingOf 2 2) (2 * k) = false) ∧
    (__find_block_slow (fun _ _ => none) id id [5, 6, 7, 8] 4 2 2 [] [7, 8]).1
      = Outcome.exitProcess 1 CzError.blockNotFound :=
  ⟨fun _ _ => rfl,
   c2_slow_scan_exhaust_exits (fun _ _ => none) id id [5, 6, 7, 8] [] [7, 8]
     4 2 2 (fun _ _ => rfl)⟩

/-- Counterexample for claim C2 as stated: on a concrete exhausted scan the
embedded __find_block_slow ends in the process-exit outcome (status 1), not in
a typed failure value returned to the caller (isErr is false), refuting the
statement that the Block Locator never terminates the process. -/
theorem c2_counterexample :
    (__find_block_slow (fun _ _ => none) id id [5, 6, 7, 8] 4 2 2 [] [7, 8]).1
      = Outcome.exitProcess 1 CzError.blockNotFound ∧
    isErr (__find_block_slow (fun _ _ => none) id id [5, 6, 7, 8] 4 2 2 []
      [7, 8]).1 = false ∧
    isExit (__find_block_slow (fun _ _ => none) id id [5, 6, 7, 8] 4 2 2 []
      [7, 8]).1 = true := by
  decide

/-! ### Claim C3 -/

/-- Claim C3 (amended): for every call to decrypt_file with a non-negative
passed_block_index, that index is returned unchanged and zero scan iterations
are performed; moreover no header parsing occurs either, because
_find_selected_block (which opens the file and reads the header) is only
called when passed_block_index < 0 -- the encrypted file is never opened. -/
theorem c3_override_skips_header_and_scan
    (decrypt : Padding → List Nat → Option (List Nat))
    (hash1 hash2 : List Nat → List Nat)
    (fileData : List Nat) (block_size rsa_block_size : Nat)
    (password : List Nat) (challengeSize authSize : Nat) (openOk : Bool)
    (passed_block_index : Int)
    (hp : isPow2 block_size = true) (hi : 0 ≤ passed_block_index) :
    (decrypt_file decrypt hash1 hash2 fileData block_size rsa_block_size
        password challengeSize authSize true openOk passed_block_index).1
      = Outcome.ok passed_block_index.toNat ∧
    hasHeaderRead (decrypt_file decrypt hash1 hash2 fileData block_size
      rsa_block_size password challengeSize authSize true openOk
      passed_block_index).2 = false ∧
    hasScanAttempt (decrypt_file decrypt hash1 hash2 fileData block_size
      rsa_block_size password challengeSize authSize true openOk
      passed_block_index).2 = false ∧
    openCount (decrypt_file decrypt hash1 hash2 fileData block_size
      rsa_block_size password challengeSize authSize true openOk
      passed_block_index).2 = 0 := by
  have hneg : ¬ passed_block_index < 0 := by omega
  simp [decrypt_file, hp, hneg, hasHeaderRead, hasScanAttempt, openCount]

/-- Witness for claim C3 at a concrete call with override index 5. -/
theorem c3_override_skips_header_and_scan_witness :
    isPow2 2 = true ∧ ((0 : Int) ≤ 5) ∧
    ((decrypt_file (fun _ _ => none) id id [0, 9, 5, 5] 2 2 [] 1 1 true true
        5).1 = Outcome.ok (Int.toNat 5) ∧
     hasHeaderRead (decrypt_file (fun _ _ => none) id id [0, 9, 5, 5] 2 2 []
       1 1 true true 5).2 = false ∧
     hasScanAttempt (decrypt_file (fun _ _ => none) id id [0, 9, 5, 5] 2 2 []
       1 1 true true 5).2 = false ∧
     openCount (decrypt_file (fun _ _ => none) id id [0, 9, 5, 5] 2 2 []
       1 1 true true 5).2 = 0) :=
  ⟨by decide, by decide,
   c3_override_skips_header_and_scan (fun _ _ => none) id id [0, 9, 5, 5]
     2 2 [] 1 1 true 5 (by decide) (by decide)⟩

/-- Counterexample for claim C3 as stated: with a non-negative override index
(5) on a file whose slow-mode header is perfectly well formed, the index is
returned unchanged and no scan runs, but no header field is ever read and the
encrypted file is never even opened -- refuting the part of the claim that
says header parsing of the encrypted file still occurs. -/
theorem c3_counterexample :
    (decrypt_file (fun _ _ => none) id id [0, 9, 5, 5] 2 2 [] 1 1 true true
        5).1 = Outcome.ok 5 ∧
    hasHeaderRead (decrypt_file (fun _ _ => none) id id [0, 9, 5, 5] 2 2 []
      1 1 true true 5).2 = false ∧
    openCount (decrypt_file (fun _ _ => none) id id [0, 9, 5, 5] 2 2 []
      1 1 true true 5).2 = 0 ∧
    (readHeaderTr [0, 9, 5, 5] 1 1).1
      = Except.ok ⟨false, [9], []⟩ := by
  decide

/-! ### Claim C4 -/

/-- Claim C4 (amended): for every block_size that is not a power of two,
decrypt_file fails with the invalid-block-size error (printed message followed
by exit(1)) before opening or reading any file handle; however, the very first
action of decrypt_file -- the declaration initializer calling
_get_file_size(encrypted_file) -- queries the size of the encrypted file
before the validation runs, so the file is touched (stat) before the failure.
The whole event trace of such a run is exactly the size query followed by the
failed block-size check. -/
theorem c4_bad_block_size_trace
    (decrypt : Padding → List Nat → Option (List Nat))
    (hash1 hash2 : List Nat → List Nat)
    (fileData : List Nat) (block_size rsa_block_size : Nat)
    (password : List Nat) (challengeSize authSize : Nat)
    (keyLoadOk openOk : Bool) (passed_block_index : Int)
    (hp : isPow2 block_size = false) :
    decrypt_file decrypt hash1 hash2 fileData block_size rsa_block_size
        password challengeSize authSize keyLoadOk openOk passed_block_index
      = (Outcome.exitProcess 1 CzError.invalidBlockSize,
         [DEvent.fileSizeQuery, DEvent.blockSizeCheck]) := by
  simp [decrypt_file, hp]

/-- Witness for claim C4 at block_size = 3. -/
theorem c4_bad_block_size_trace_witness :
    isPow2 3 = false ∧
    decrypt_file (fun _ _ => none) id id [0, 9, 5, 5] 3 2 [] 1 1 true true
        (-1)
      = (Outcome.exitProcess 1 CzError.invalidBlockSize,
         [DEvent.fileSizeQuery, DEvent.blockSizeCheck]) :=
  ⟨by decide,
   c4_bad_block_size_trace (fun _ _ => none) id id [0, 9, 5, 5] 3 2 [] 1 1
     true true (-1) (by decide)⟩

/-- Counterexample for claim C4 as stated: at block_size = 3 the run does fail
with the invalid-block-size error, but the encrypted file has already been
touched before the validation failure: the file-size query is the first event
of the trace, refuting the part of the claim that says the file is not
touched in any way before the validation failure. -/
theorem c4_counterexample :
    (decrypt_file (fun _ _ => none) id id [0, 9, 5, 5] 3 2 [] 1 1 true true
        (-1)).1 = Outcome.exitProcess 1 CzError.invalidBlockSize ∧
    (decrypt_file (fun _ _ => none) id id [0, 9, 5, 5] 3 2 [] 1 1 true true
        (-1)).2.head? = some DEvent.fileSizeQuery ∧
    (decrypt_file (fun _ _ => none) id id [0, 9, 5, 5] 3 2 [] 1 1 true true
        (-1)).2 = [DEvent.fileSizeQuery, DEvent.blockSizeCheck] := by
  decide

/-! ### Header reader characterization -/

/-- Empty file: the fast-flag fread comes up short immediately. -/
theorem readHeaderTr_nil (cs as : Nat) :
    readHeaderTr [] cs as
      = (Except.error HdrField.fastFlag, [HdrField.fastFlag]) := rfl

/-- Flag readable but challenge fread short. -/
theorem readHeaderTr_cons_shortch (b : Nat) (rest : List Nat) (cs as : Nat)
    (h : rest.length < cs) :
    readHeaderTr (b :: rest) cs as
      = (Except.error HdrField.challenge,
         [HdrField.fastFlag, HdrField.challenge]) := by
  simp only [readHeaderTr]
  rw [if_neg (by simp), if_pos (by simp [List.length_take]; omega)]

/-- Fast mode, auth fread short. -/
theorem readHeaderTr_cons_fast_shortauth (b : Nat) (rest : List Nat)
    (cs as : Nat) (hcs : cs ≤ rest.length) (hb : b ≠ 0)
    (has : rest.length - cs < as) :
    readHeaderTr (b :: rest) cs as
      = (Except.error HdrField.auth,
         [HdrField.fastFlag, HdrField.challenge, HdrField.auth]) := by
  simp only [readHeaderTr]
  rw [if_neg (by simp), if_neg (by simp [List.length_take]; omega),
    if_pos (by simp [hb]),
    if_pos (by
      rw [show 1 + cs = cs + 1 from Nat.add_comm 1 cs]
      simp [List.length_take]
      omega)]

/-- Fast mode, full header present. -/
theorem readHeaderTr_cons_fast_ok (b : Nat) (rest : List Nat) (cs as : Nat)
    (hcs : cs ≤ rest.length) (hb : b ≠ 0) (has : as ≤ rest.length - cs) :
    readHeaderTr (b :: rest) cs as
      = (Except.ok ⟨true, rest.take cs, (rest.drop cs).take as⟩,
         [HdrField.fastFlag, HdrField.challenge, HdrField.auth]) := by
  simp only [readHeaderTr]
  rw [if_neg (by simp), if_neg (by simp [List.length_take]; omega),
    if_pos (by simp [hb]),
    if_neg (by
      rw [show 1 + cs = cs + 1 from Nat.add_comm 1 cs]
      simp [List.length_take]
      omega)]
  simp [hb, show 1 + cs = cs + 1 from Nat.add_comm 1 cs]

/-- Slow mode (flag byte zero), basic header present. -/
theorem readHeaderTr_cons_slow_ok (b : Nat) (rest : List Nat) (cs as : Nat)
    (hcs : cs ≤ rest.length) (hb : b = 0) :
    readHeaderTr (b :: rest) cs as
      = (Except.ok ⟨false, rest.take cs, []⟩,
         [HdrField.fastFlag, HdrField.challenge]) := by
  subst hb
  simp only [readHeaderTr]
  rw [if_neg (by simp), if_neg (by simp [List.length_take]; omega),
    if_neg (by simp)]
  simp

/-! ### Claim C5 -/

/-- Claim C5: the header reader reads the mode flag first (1 byte), then the
challenge (challengeSize bytes), and, exactly when the flag byte is nonzero
(Fast mode) and the earlier reads succeeded, also the auth tag (authSize
bytes); a short read at any stage yields the truncation error carrying the
field being read, the attempted-field trace is always a prefix of
[fastFlag, challenge, auth] in that order, and the failing field is the last
field attempted (nothing further is read). -/
theorem c5_header_order_truncation (data : List Nat) (cs as : Nat) :
    ((readHeaderTr data cs as).1 = Except.error HdrField.fastFlag ↔
      data.length < 1) ∧
    ((readHeaderTr data cs as).1 = Except.error HdrField.challenge ↔
      1 ≤ data.length ∧ data.length < 1 + cs) ∧
    ((readHeaderTr data cs as).1 = Except.error HdrField.auth ↔
      1 + cs ≤ data.length ∧ data.getD 0 0 ≠ 0 ∧
        data.length < 1 + cs + as) ∧
    ((readHeaderTr data cs as).2 = [HdrField.fastFlag] ∨
     (readHeaderTr data cs as).2 = [HdrField.fastFlag, HdrField.challenge] ∨
     (readHeaderTr data cs as).2
       = [HdrField.fastFlag, HdrField.challenge, HdrField.auth]) ∧
    (HdrField.auth ∈ (readHeaderTr data cs as).2 ↔
      1 + cs ≤ data.length ∧ data.getD 0 0 ≠ 0) ∧
    (∀ f, (readHeaderTr data cs as).1 = Except.error f →
      (readHeaderTr data cs as).2.getLast? = some f) := by
  rcases data with _ | ⟨b, rest⟩
  · rw [readHeaderTr_nil]
    refine ⟨by simp, by simp, by simp, by simp, by simp, ?_⟩
    intro f h
    simp only [Except.error.injEq] at h
    subst h
    rfl
  · by_cases h1 : rest.length < cs
    · rw [readHeaderTr_cons_shortch b rest cs as h1]
      refine ⟨by simp, ?_, ?_, by simp, ?_, ?_⟩
      · simp only [List.length_cons]
        constructor
        · intro _
          omega
        · intro _
          trivial
      · simp only [List.length_cons, List.getD_cons_zero]
        constructor
        · intro h
          exact absurd h (by simp)
        · rintro ⟨ha, -, -⟩
          omega
      · simp only [List.length_cons, List.getD_cons_zero]
        constructor
        · intro h
          simp at h
        · rintro ⟨ha, -⟩
          omega
      · intro f h
        simp only [Except.error.injEq] at h
        subst h
        rfl
    · have hcs : cs ≤ rest.length := Nat.le_of_not_lt h1
      by_cases hb : b = 0
      · rw [readHeaderTr_cons_slow_ok b rest cs as hcs hb]
        refine ⟨by simp, ?_, ?_, by simp, ?_, ?_⟩
        · simp only [List.length_cons]
          constructor
          · intro h
            exact absurd h (by simp)
          · rintro ⟨-, h2⟩
            omega
        · simp only [List.length_cons, List.getD_cons_zero]
          constructor
          · intro h
            exact absurd h (by simp)
          · rintro ⟨-, h2, -⟩
            exact (h2 hb).elim
        · simp only [List.getD_cons_zero]
          constructor
          · intro h
            simp at h
          · rintro ⟨-, h2⟩
            exact (h2 hb).elim
        · intro f h
          exact absurd h (by simp)
      · by_cases h3 : rest.length - cs < as
        · rw [readHeaderTr_cons_fast_shortauth b rest cs as hcs hb h3]
          refine ⟨by simp, ?_, ?_, by simp, ?_, ?_⟩
          · simp only [List.length_cons]
            constructor
            · intro h
              exact absurd h (by simp)
            · rintro ⟨-, h2⟩
              omega
          · simp only [List.length_cons, List.getD_cons_zero]
            constructor
            · intro _
              exact ⟨by omega, hb, by omega⟩
            · intro _
              trivial
          · simp only [List.length_cons, List.getD_cons_zero]
            constructor
            · intro _
              exact ⟨by omega, hb⟩
            · intro _
              simp
          · intro f h
            simp only [Except.error.injEq] at h
            subst h
            rfl
        · have has : as ≤ rest.length - cs := Nat.le_of_not_lt h3
          rw [readHeaderTr_cons_fast_ok b rest cs as hcs hb has]
          refine ⟨by simp, ?_, ?_, by simp, ?_, ?_⟩
          · simp only [List.length_cons]
            constructor
            · intro h
              exact absurd h (by simp)
            · rintro ⟨-, h2⟩
              omega
          · simp only [List.length_cons, List.getD_cons_zero]
            constructor
            · intro h
              exact absurd h (by simp)
            · rintro ⟨-, -, h2⟩
              omega
          · simp only [List.length_cons, List.getD_cons_zero]
            constructor
            · intro _
              exact ⟨by omega, hb⟩
            · intro _
              simp
          · intro f h
            exact absurd h (by simp)

/-- Witness for claim C5: a concrete truncated header (flag byte present,
challenge missing) produces the truncation error carrying the challenge
field, and the challenge is the last field attempted. -/
theorem c5_header_order_truncation_witness :
    (readHeaderTr [1, 7] 2 3).1 = Except.error HdrField.challenge ∧
    (readHeaderTr [1, 7] 2 3).2.getLast? = some HdrField.challenge :=
  ⟨(c5_header_order_truncation [1, 7] 2 3).2.1.mpr (by decide),
   (c5_header_order_truncation [1, 7] 2 3).2.2.2.2.2 HdrField.challenge
     ((c5_header_order_truncation [1, 7] 2 3).2.1.mpr (by decide))⟩

/-! ### Claim C6 -/

/-- Claim C6: the padding decision satisfies: no-padding exactly when
block_size = rsa_block_size and OAEP otherwise; __find_block_slow computes it
once before the loop, so the padding recorded for every attempted candidate
equals that single per-invocation value, independent of the candidate. -/
theorem c6_padding_decided_once
    (decrypt : Padding → List Nat → Option (List Nat))
    (hash1 hash2 : List Nat → List Nat)
    (data password challengeBytes : List Nat)
    (file_size block_size rsa_block_size : Nat) :
    (paddingOf block_size rsa_block_size = Padding.noPadding ↔
      block_size = rsa_block_size) ∧
    (paddingOf block_size rsa_block_size = Padding.oaep ↔
      block_size ≠ rsa_block_size) ∧
    (∀ p ∈ (__find_block_slow decrypt hash1 hash2 data file_size block_size
        rsa_block_size password challengeBytes).2,
      p.2 = paddingOf block_size rsa_block_size) := by
  refine ⟨?_, ?_, ?_⟩
  · unfold paddingOf
    by_cases h : block_size = rsa_block_size
    · simp [h]
    · simp [h]
  · unfold paddingOf
    by_cases h : block_size = rsa_block_size
    · simp [h]
    · simp [h]
  · intro p hp
    simp only [__find_block_slow] at hp
    rcases List.mem_map.mp hp with ⟨i, -, hi⟩
    rw [← hi]

/-- Witness for claim C6 at a concrete OAEP instantiation (block_size = 2,
rsa_block_size = 4). -/
theorem c6_padding_decided_once_witness :
    paddingOf 2 4 = Padding.oaep ∧
    (∀ p ∈ (__find_block_slow (fun _ _ => none) id id [5, 6, 7, 8] 4 2 4 []
        [7, 8]).2, p.2 = paddingOf 2 4) :=
  ⟨(c6_padding_decided_once (fun _ _ => none) id id [5, 6, 7, 8] [] [7, 8]
      4 2 4).2.1.mpr (by decide),
   (c6_padding_decided_once (fun _ _ => none) id id [5, 6, 7, 8] [] [7, 8]
      4 2 4).2.2⟩

/-! ### Claim C7 -/

/-- Claim C7 (amended): no key/modulus-size consistency validation exists in
the code.  Even when rsa_block_size < block_size the locator never produces
an InvalidConfigurationError typed failure (its outcome is a found index or
the block-not-found process exit), and when no candidate is accepted the scan
still attempts every multiple of block_size below file_size, block by block,
rather than failing up front. -/
theorem c7_no_configuration_validation
    (decrypt : Padding → List Nat → Option (List Nat))
    (hash1 hash2 : List Nat → List Nat)
    (data password challengeBytes : List Nat)
    (file_size block_size rsa_block_size : Nat)
    (hbs : 0 < block_size) (hlt : rsa_block_size < block_size) :
    isErr (__find_block_slow decrypt hash1 hash2 data file_size block_size
      rsa_block_size password challengeBytes).1 = false ∧
    (__find_block_slow decrypt hash1 hash2 data file_size block_size
      rsa_block_size password challengeBytes).1
      ≠ Outcome.err CzError.invalidConfiguration ∧
    ((∀ j, slowAccept decrypt hash1 hash2 data password challengeBytes
        rsa_block_size (paddingOf block_size rsa_block_size) j = false) →
      ∀ k, block_size * k < file_size →
        block_size * k ∈ (__find_block_slow decrypt hash1 hash2 data
          file_size block_size rsa_block_size password
          challengeBytes).2.map Prod.fst) := by
  have herr : isErr (__find_block_slow decrypt hash1 hash2 data file_size
      block_size rsa_block_size password challengeBytes).1 = false := by
    simp only [__find_block_slow]
    rcases h : (scanTr (slowAccept decrypt hash1 hash2 data password
        challengeBytes rsa_block_size (paddingOf block_size rsa_block_size))
        file_size block_size).1 with _ | i
    · rfl
    · rfl
  refine ⟨herr, ?_, ?_⟩
  · intro hEq
    rw [hEq] at herr
    simp [isErr] at herr
  · intro hall k hk
    have hmem := scanTrAux_mem (slowAccept decrypt hash1 hash2 data password
        challengeBytes rsa_block_size (paddingOf block_size rsa_block_size))
      file_size block_size hbs hall (file_size + 1) 0 (by omega) k
      (by simpa using hk)
    simp only [Nat.zero_add] at hmem
    simp only [__find_block_slow, List.map_map]
    have hcomp : (Prod.fst ∘ fun i => (i, paddingOf block_size rsa_block_size))
        = fun i : Nat => i := by
      funext i
      rfl
    rw [hcomp]
    simpa [scanTr] using hmem

/-- Witness for claim C7 at a concrete misconfigured run: block_size = 4,
rsa_block_size = 2, decryption failing everywhere. -/
theorem c7_no_configuration_validation_witness :
    0 < 4 ∧ 2 < 4 ∧
    isErr (__find_block_slow (fun _ _ => none) id id [1, 2, 3, 4, 5] 5 4 2 []
      []).1 = false ∧
    (__find_block_slow (fun _ _ => none) id id [1, 2, 3, 4, 5] 5 4 2 [] []).1
      ≠ Outcome.err CzError.invalidConfiguration :=
  ⟨by decide, by decide,
   (c7_no_configuration_validation (fun _ _ => none) id id [1, 2, 3, 4, 5]
      [] [] 5 4 2 (by decide) (by decide)).1,
   (c7_no_configuration_validation (fun _ _ => none) id id [1, 2, 3, 4, 5]
      [] [] 5 4 2 (by decide) (by decide)).2.1⟩

/-- Counterexample for claim C7 as stated: in a concrete invocation with
rsa_block_size = 2 < block_size = 4, no InvalidConfigurationError is ever
reported; instead the scan runs block by block (offsets 0 and 4 are both
attempted) and the run ends in the block-not-found process exit. -/
theorem c7_counterexample :
    2 < 4 ∧
    (__find_block_slow (fun _ _ => none) id id [1, 2, 3, 4, 5] 5 4 2 [] []).1
      = Outcome.exitProcess 1 CzError.blockNotFound ∧
    isErr (__find_block_slow (fun _ _ => none) id id [1, 2, 3, 4, 5] 5 4 2 []
      []).1 = false ∧
    (__find_block_slow (fun _ _ => none) id id [1, 2, 3, 4, 5] 5 4 2 []
      []).2.map Prod.fst = [0, 4] := by
  decide

/-! ### Claim C9 -/

/-- Claim C9 (amended): __find_block_fast is an unimplemented stub: it has
the same result type as the slow path but returns index 0 unconditionally for
every input, performs no auth-tag check, and never fails with the
block-not-found error. -/
theorem c9_fast_stub_returns_zero (data : List Nat)
    (file_size block_size rsa_block_size : Nat)
    (password challengeBytes authBytes : List Nat) :
    __find_block_fast data file_size block_size rsa_block_size password
      challengeBytes authBytes = Outcome.ok 0 := rfl

/-- Counterexample for claim C9 as stated: with file_size = 0 there are no
candidate indices at all, so the candidates are exhausted without any match,
yet the stub succeeds with index 0 instead of failing with the
block-not-found error. -/
theorem c9_counterexample :
    __find_block_fast [] 0 16 32 [] [] [] = Outcome.ok 0 ∧
    isExit (__find_block_fast [] 0 16 32 [] [] []) = false ∧
    __find_block_fast [] 0 16 32 [] [] []
      ≠ Outcome.exitProcess 1 CzError.blockNotFound := by
  decide

/-! ### Claim C10 -/

/-- Claim C10 (code bug): with the 4096-bit-key example from the code's own
comment (rsa_block_size = 512, block_size = 256) and a 2-byte password, OAEP
decryption may return up to oaepMaxLen 512 = 470 bytes (which is within the
rsa_block_size bound the claim itself grants); the bytes written in that
iteration then extend to 470 + 2 = 472, exceeding the declared capacity
256 + 2 = 258 of decrypted_block, so the password memcpy writes 214 bytes
past the end of the buffer. -/
theorem c10_decrypted_buffer_overflow :
    oaepMaxLen 512 = 470 ∧
    oaepMaxLen 512 ≤ 512 ∧
    decryptedBufCapacity 256 2 = 258 ∧
    iterWriteExtent (oaepMaxLen 512) 2 = 472 ∧
    decryptedBufCapacity 256 2 < iterWriteExtent (oaepMaxLen 512) 2 := by
  decide

/-! ### Counting helpers -/

/-- Filter-count of a mapped list is zero when the predicate rejects every
image of the mapping. -/
theorem filterCount_map_zero {α : Type} (p : DEvent → Bool) (f : α → DEvent)
    (hf : ∀ x, p (f x) = false) (l : List α) :
    ((l.map f).filter p).length = 0 := by
  induction l with
  | nil => rfl
  | cons a t ih => simp [List.filter_cons, hf a, ih]

/-- headerRead events are not keyFree events. -/
theorem keyFreeCount_headerMap (l : List HdrField) :
    keyFreeCount (l.map DEvent.headerRead) = 0 :=
  filterCount_map_zero _ _ (fun _ => rfl) l

/-- headerRead events are not closeEncrypted events. -/
theorem closeCount_headerMap (l : List HdrField) :
    closeCount (l.map DEvent.headerRead) = 0 :=
  filterCount_map_zero _ _ (fun _ => rfl) l

/-- headerRead events are not encryptedOpen events. -/
theorem openCount_headerMap (l : List HdrField) :
    openCount (l.map DEvent.headerRead) = 0 :=
  filterCount_map_zero _ _ (fun _ => rfl) l

/-- scanAttempt events are not keyFree events. -/
theorem keyFreeCount_scanMap (l : List (Nat × Padding)) :
    keyFreeCount (l.map (fun p => DEvent.scanAttempt p.1)) = 0 :=
  filterCount_map_zero _ _ (fun _ => rfl) l

/-- scanAttempt events are not closeEncrypted events. -/
theorem closeCount_scanMap (l : List (Nat × Padding)) :
    closeCount (l.map (fun p => DEvent.scanAttempt p.1)) = 0 :=
  filterCount_map_zero _ _ (fun _ => rfl) l

/-- scanAttempt events are not encryptedOpen events. -/
theorem openCount_scanMap (l : List (Nat × Padding)) :
    openCount (l.map (fun p => DEvent.scanAttempt p.1)) = 0 :=
  filterCount_map_zero _ _ (fun _ => rfl) l

/-- Count of keyFree events distributes over append. -/
theorem keyFreeCount_append (l1 l2 : List DEvent) :
    keyFreeCount (l1 ++ l2) = keyFreeCount l1 + keyFreeCount l2 := by
  simp [keyFreeCount, List.filter_append]

/-- Count of closeEncrypted events distributes over append. -/
theorem closeCount_append (l1 l2 : List DEvent) :
    closeCount (l1 ++ l2) = closeCount l1 + closeCount l2 := by
  simp [closeCount, List.filter_append]

/-- Count of encryptedOpen events distributes over append. -/
theorem openCount_append (l1 l2 : List DEvent) :
    openCount (l1 ++ l2) = openCount l1 + openCount l2 := by
  simp [openCount, List.filter_append]

/-- The slow locator has exactly two possible outcomes: a found index, or the
block-not-found process exit produced by _handle_simple_error. -/
theorem find_block_slow_outcomes
    (decrypt : Padding → List Nat → Option (List Nat))
    (hash1 hash2 : List Nat → List Nat)
    (data : List Nat) (file_size block_size rsa_block_size : Nat)
    (password challengeBytes : List Nat) :
    (∃ idx, (__find_block_slow decrypt hash1 hash2 data file_size block_size
      rsa_block_size password challengeBytes).1 = Outcome.ok idx) ∨
    (__find_block_slow decrypt hash1 hash2 data file_size block_size
      rsa_block_size password challengeBytes).1
      = Outcome.exitProcess 1 CzError.blockNotFound := by
  simp only [__find_block_slow]
  rcases h : (scanTr (slowAccept decrypt hash1 hash2 data password
      challengeBytes rsa_block_size (paddingOf block_size rsa_block_size))
      file_size block_size).1 with _ | i
  · right
    rfl
  · left
    exact ⟨i, rfl⟩

/-! ### Claim C8 -/

/-- Claim C8 (amended): for a validated invocation (power-of-two block size,
key loaded, file openable): on the match-found path and on every
header-truncation path the key handle is released exactly once and the
encrypted-file handle is closed exactly once; but on the block-not-found path
the process exits from inside the scan loop before RSA_free and fclose can
run, so the key handle is never released and the file handle (opened once) is
never closed -- a leak on that exit path, though never a double release. -/
theorem c8_resource_release_per_path
    (decrypt : Padding → List Nat → Option (List Nat))
    (hash1 hash2 : List Nat → List Nat)
    (fileData : List Nat) (block_size rsa_block_size : Nat)
    (password : List Nat) (challengeSize authSize : Nat)
    (passed_block_index : Int)
    (hp : isPow2 block_size = true) :
    (∀ idx,
      (decrypt_file decrypt hash1 hash2 fileData block_size rsa_block_size
        password challengeSize authSize true true passed_block_index).1
        = Outcome.ok idx →
      keyFreeCount (decrypt_file decrypt hash1 hash2 fileData block_size
        rsa_block_size password challengeSize authSize true true
        passed_block_index).2 = 1 ∧
      closeCount (decrypt_file decrypt hash1 hash2 fileData block_size
        rsa_block_size password challengeSize authSize true true
        passed_block_index).2
        = openCount (decrypt_file decrypt hash1 hash2 fileData block_size
          rsa_block_size password challengeSize authSize true true
          passed_block_index).2) ∧
    (∀ f,
      (decrypt_file decrypt hash1 hash2 fileData block_size rsa_block_size
        password challengeSize authSize true true passed_block_index).1
        = Outcome.exitProcess 1 (CzError.headerTruncated f) →
      keyFreeCount (decrypt_file decrypt hash1 hash2 fileData block_size
        rsa_block_size password challengeSize authSize true true
        passed_block_index).2 = 1 ∧
      closeCount (decrypt_file decrypt hash1 hash2 fileData block_size
        rsa_block_size password challengeSize authSize true true
        passed_block_index).2 = 1 ∧
      openCount (decrypt_file decrypt hash1 hash2 fileData block_size
        rsa_block_size password challengeSize authSize true true
        passed_block_index).2 = 1) ∧
    ((decrypt_file decrypt hash1 hash2 fileData block_size rsa_block_size
        password challengeSize authSize true true passed_block_index).1
        = Outcome.exitProcess 1 CzError.blockNotFound →
      keyFreeCount (decrypt_file decrypt hash1 hash2 fileData block_size
        rsa_block_size password challengeSize authSize true true
        passed_block_index).2 = 0 ∧
      closeCount (decrypt_file decrypt hash1 hash2 fileData block_size
        rsa_block_size password challengeSize authSize true true
        passed_block_index).2 = 0 ∧
      openCount (decrypt_file decrypt hash1 hash2 fileData block_size
        rsa_block_size password challengeSize authSize true true
        passed_block_index).2 = 1) := by
  by_cases hneg : passed_block_index < 0
  · rcases hH : readHeaderTr fileData challengeSize authSize with ⟨hres, htr⟩
    cases hres with
    | error f0 =>
      have hr : decrypt_file decrypt hash1 hash2 fileData block_size
          rsa_block_size password challengeSize authSize true true
          passed_block_index
          = (Outcome.exitProcess 1 (CzError.headerTruncated f0),
             [DEvent.fileSizeQuery, DEvent.blockSizeCheck, DEvent.keyLoad,
              DEvent.encryptedOpen] ++ htr.map DEvent.headerRead
              ++ [DEvent.keyFree, DEvent.closeEncrypted]) := by
        simp [decrypt_file, hp, hneg, hH]
      have hr1 : (decrypt_file decrypt hash1 hash2 fileData block_size
          rsa_block_size password challengeSize authSize true true
          passed_block_index).1
          = Outcome.exitProcess 1 (CzError.headerTruncated f0) := by
        rw [hr]
      have hr2 : (decrypt_file decrypt hash1 hash2 fileData block_size
          rsa_block_size password challengeSize authSize true true
          passed_block_index).2
          = [DEvent.fileSizeQuery, DEvent.blockSizeCheck, DEvent.keyLoad,
             DEvent.encryptedOpen] ++ htr.map DEvent.headerRead
             ++ [DEvent.keyFree, DEvent.closeEncrypted] := by
        rw [hr]
      rw [hr1, hr2]
      refine ⟨?_, ?_, ?_⟩
      · intro idx h
        simp at h
      · intro f h
        refine ⟨?_, ?_, ?_⟩
        · rw [keyFreeCount_append, keyFreeCount_append, keyFreeCount_headerMap]
          decide
        · rw [closeCount_append, closeCount_append, closeCount_headerMap]
          decide
        · rw [openCount_append, openCount_append, openCount_headerMap]
          decide
      · intro h
        simp at h
    | ok hdr =>
      by_cases hf : hdr.fast
      · have hr : decrypt_file decrypt hash1 hash2 fileData block_size
            rsa_block_size password challengeSize authSize true true
            passed_block_index
            = (Outcome.ok 0,
               [DEvent.fileSizeQuery, DEvent.blockSizeCheck, DEvent.keyLoad,
                DEvent.encryptedOpen] ++ htr.map DEvent.headerRead
                ++ [DEvent.closeEncrypted, DEvent.keyFree]) := by
          simp [decrypt_file, hp, hneg, hH, hf, __find_block_fast]
        have hr1 : (decrypt_file decrypt hash1 hash2 fileData block_size
            rsa_block_size password challengeSize authSize true true
            passed_block_index).1 = Outcome.ok 0 := by
          rw [hr]
        have hr2 : (decrypt_file decrypt hash1 hash2 fileData block_size
            rsa_block_size password challengeSize authSize true true
            passed_block_index).2
            = [DEvent.fileSizeQuery, DEvent.blockSizeCheck, DEvent.keyLoad,
               DEvent.encryptedOpen] ++ htr.map DEvent.headerRead
               ++ [DEvent.closeEncrypted, DEvent.keyFree] := by
          rw [hr]
        rw [hr1, hr2]
        refine ⟨?_, ?_, ?_⟩
        · intro idx h
          refine ⟨?_, ?_⟩
          · rw [keyFreeCount_append, keyFreeCount_append, keyFreeCount_headerMap]
            decide
          · rw [closeCount_append, closeCount_append, closeCount_headerMap,
              openCount_append, openCount_append, openCount_headerMap]
            decide
        · intro f h
          simp at h
        · intro h
          simp at h
      · rcases hS : __find_block_slow decrypt hash1 hash2
            (fileData.drop (1 + challengeSize)) fileData.length block_size
            rsa_block_size password hdr.challengeBytes with ⟨sres, str⟩
        have houtc := find_block_slow_outcomes decrypt hash1 hash2
          (fileData.drop (1 + challengeSize)) fileData.length block_size
          rsa_block_size password hdr.challengeBytes
        rw [hS] at houtc
        rcases houtc with ⟨idx0, hidx0⟩ | hbnf
        · have hsres : sres = Outcome.ok idx0 := hidx0
          subst hsres
          have hr : decrypt_file decrypt hash1 hash2 fileData block_size
              rsa_block_size password challengeSize authSize true true
              passed_block_index
              = (Outcome.ok idx0,
                 [DEvent.fileSizeQuery, DEvent.blockSizeCheck, DEvent.keyLoad,
                  DEvent.encryptedOpen] ++ htr.map DEvent.headerRead
                  ++ str.map (fun p => DEvent.scanAttempt p.1)
                  ++ [DEvent.closeEncrypted, DEvent.keyFree]) := by
            simp [decrypt_file, hp, hneg, hH, hf, hS]
          have hr1 : (decrypt_file decrypt hash1 hash2 fileData block_size
              rsa_block_size password challengeSize authSize true true
              passed_block_index).1 = Outcome.ok idx0 := by
            rw [hr]
          have hr2 : (decrypt_file decrypt hash1 hash2 fileData block_size
              rsa_block_size password challengeSize authSize true true
              passed_block_index).2
              = [DEvent.fileSizeQuery, DEvent.blockSizeCheck, DEvent.keyLoad,
                 DEvent.encryptedOpen] ++ htr.map DEvent.headerRead
                 ++ str.map (fun p => DEvent.scanAttempt p.1)
                 ++ [DEvent.closeEncrypted, DEvent.keyFree] := by
            rw [hr]
          rw [hr1, hr2]
          refine ⟨?_, ?_, ?_⟩
          · intro idx h
            refine ⟨?_, ?_⟩
            · rw [keyFreeCount_append, keyFreeCount_append,
                keyFreeCount_append, keyFreeCount_headerMap,
                keyFreeCount_scanMap]
              decide
            · rw [closeCount_append, closeCount_append, closeCount_append,
                closeCount_headerMap, closeCount_scanMap, openCount_append,
                openCount_append, openCount_append, openCount_headerMap,
                openCount_scanMap]
              decide
          · intro f h
            simp at h
          · intro h
            simp at h
        · have hsres : sres = Outcome.exitProcess 1 CzError.blockNotFound :=
            hbnf
          subst hsres
          have hr : decrypt_file decrypt hash1 hash2 fileData block_size
              rsa_block_size password challengeSize authSize true true
              passed_block_index
              = (Outcome.exitProcess 1 CzError.blockNotFound,
                 [DEvent.fileSizeQuery, DEvent.blockSizeCheck, DEvent.keyLoad,
                  DEvent.encryptedOpen] ++ htr.map DEvent.headerRead
                  ++ str.map (fun p => DEvent.scanAttempt p.1)) := by
            simp [decrypt_file, hp, hneg, hH, hf, hS]
          have hr1 : (decrypt_file decrypt hash1 hash2 fileData block_size
              rsa_block_size password challengeSize authSize true true
              passed_block_index).1
              = Outcome.exitProcess 1 CzError.blockNotFound := by
            rw [hr]
          have hr2 : (decrypt_file decrypt hash1 hash2 fileData block_size
              rsa_block_size password challengeSize authSize true true
              passed_block_index).2
              = [DEvent.fileSizeQuery, DEvent.blockSizeCheck, DEvent.keyLoad,
                 DEvent.encryptedOpen] ++ htr.map DEvent.headerRead
                 ++ str.map (fun p => DEvent.scanAttempt p.1) := by
            rw [hr]
          rw [hr1, hr2]
          refine ⟨?_, ?_, ?_⟩
          · intro idx h
            simp at h
          · intro f h
            simp at h
          · intro h
            refine ⟨?_, ?_, ?_⟩
            · rw [keyFreeCount_append, keyFreeCount_append,
                keyFreeCount_headerMap, keyFreeCount_scanMap]
              decide
            · rw [closeCount_append, closeCount_append, closeCount_headerMap,
                closeCount_scanMap]
              decide
            · rw [openCount_append, openCount_append, openCount_headerMap,
                openCount_scanMap]
              decide
  · have hr : decrypt_file decrypt hash1 hash2 fileData block_size
        rsa_block_size password challengeSize authSize true true
        passed_block_index
        = (Outcome.ok passed_block_index.toNat,
           [DEvent.fileSizeQuery, DEvent.blockSizeCheck, DEvent.keyLoad,
            DEvent.keyFree]) := by
      simp [decrypt_file, hp, hneg]
    have hr1 : (decrypt_file decrypt hash1 hash2 fileData block_size
        rsa_block_size password challengeSize authSize true true
        passed_block_index).1 = Outcome.ok passed_block_index.toNat := by
      rw [hr]
    have hr2 : (decrypt_file decrypt hash1 hash2 fileData block_size
        rsa_block_size password challengeSize authSize true true
        passed_block_index).2
        = [DEvent.fileSizeQuery, DEvent.blockSizeCheck, DEvent.keyLoad,
           DEvent.keyFree] := by
      rw [hr]
    rw [hr1, hr2]
    refine ⟨?_, ?_, ?_⟩
    · intro idx h
      exact ⟨by decide, by decide⟩
    · intro f h
      simp at h
    · intro h
      simp at h

/-- Witness for claim C8: a concrete validated no-match run in which the
block-not-found exit path leaks both handles. -/
theorem c8_resource_release_per_path_witness :
    isPow2 2 = true ∧
    (decrypt_file (fun _ _ => none) id id [0, 9, 5, 5] 2 2 [] 1 1 true true
      (-1)).1 = Outcome.exitProcess 1 CzError.blockNotFound ∧
    (keyFreeCount (decrypt_file (fun _ _ => none) id id [0, 9, 5, 5] 2 2 []
       1 1 true true (-1)).2 = 0 ∧
     closeCount (decrypt_file (fun _ _ => none) id id [0, 9, 5, 5] 2 2 []
       1 1 true true (-1)).2 = 0 ∧
     openCount (decrypt_file (fun _ _ => none) id id [0, 9, 5, 5] 2 2 []
       1 1 true true (-1)).2 = 1) :=
  ⟨by decide, by decide,
   (c8_resource_release_per_path (fun _ _ => none) id id [0, 9, 5, 5] 2 2 []
      1 1 (-1) (by decide)).2.2 (by decide)⟩

/-- Counterexample for claim C8 as stated: a concrete run (well-formed slow
header, no block matches) exits the process with the key handle released zero
times and the file handle closed zero times although the file was opened
once, refuting the claim that on every exit path each resource is released
exactly once. -/
theorem c8_counterexample :
    (decrypt_file (fun _ _ => none) id id [0, 9, 5, 5] 2 2 [] 1 1 true true
      (-1)).1 = Outcome.exitProcess 1 CzError.blockNotFound ∧
    keyFreeCount (decrypt_file (fun _ _ => none) id id [0, 9, 5, 5] 2 2 []
      1 1 true true (-1)).2 = 0 ∧
    closeCount (decrypt_file (fun _ _ => none) id id [0, 9, 5, 5] 2 2 []
      1 1 true true (-1)).2 = 0 ∧
    openCount (decrypt_file (fun _ _ => none) id id [0, 9, 5, 5] 2 2 []
      1 1 true true (-1)).2 = 1 := by
  decide
